import Mathlib

/-!
Verification of the expense-tracker core (Expense Store) of this repository.

The embedding translates the two source files:
  src/app/(model)/addModal.jsx : form validation and record construction
    (the function handleSave);
  src/unnamed/part_000 (the dashboard screen) : loadExpenses, saveExpenses,
    handleSaveExpense, deleteExpense, getExpenseStats.

Modelling conventions, each justified where it is used:
  - JavaScript numbers produced by parseFloat are modelled as rationals;
    none of the verified properties depends on binary floating point.
  - The creation instant returned by Date.now() is an epoch-millisecond
    natural number, passed explicitly as a parameter named now.  The record
    field timestamp holds that instant: in the source it is stored as the
    ISO-8601 string new Date().toISOString(), which is a strictly monotone
    injection of the millisecond value, and every use in the source
    (sorting via new Date(ts), month and year extraction) first converts it
    back to the instant, so the millisecond value is the faithful carrier.
  - AsyncStorage under the single key "expenses" is modelled by
    StorageValue: absent (getItem returns null), data l (a well-formed
    serialized list; JSON.stringify and JSON.parse are mutually inverse on
    these records), or malformed (present but not deserializable, the
    branch in which JSON.parse throws).
  - Month and year extraction (getMonth, getFullYear) is computed from the
    epoch milliseconds with the standard civil-from-days algorithm, in UTC.
-/

/-- JavaScript String.prototype.trim: remove leading and trailing
whitespace.  Modelled over the character list of the string. -/
def jsTrim (s : String) : String :=
  ⟨((s.data.dropWhile Char.isWhitespace).reverse.dropWhile
      Char.isWhitespace).reverse⟩

/-- Numeric value of a list of decimal digit characters, most significant
first; used both by the parseFloat model and as the left inverse of the
decimal rendering. -/
def digitsVal (ds : List Char) : Nat :=
  ds.foldl (fun a c => 10 * a + (c.toNat - 48)) 0

/-- Fuel-based rendering of a natural number in decimal, most significant
digit first; the fuel pattern mirrors Nat.toDigitsCore from core and keeps
the definition structurally recursive. -/
def toDecimalCore : Nat → Nat → List Char
  | 0, _ => []
  | fuel + 1, n =>
    if n < 10 then [Nat.digitChar n]
    else toDecimalCore fuel (n / 10) ++ [Nat.digitChar (n % 10)]

/-- JavaScript Number.prototype.toString for the integer values produced by
Date.now(): decimal rendering. -/
def jsNumToString (n : Nat) : String := ⟨toDecimalCore (n + 1) n⟩

/-- Exponent suffix of parseFloat: after the mantissa, an optional e or E,
an optional sign and digits; returns the sign of the exponent and its
digits (empty when there is no complete exponent, which JavaScript
ignores). -/
def exponentOf (cs : List Char) : Bool × List Char :=
  match cs with
  | c :: r =>
    if c = 'e' ∨ c = 'E' then
      match r with
      | '-' :: r2 => (false, r2.takeWhile Char.isDigit)
      | '+' :: r2 => (true, r2.takeWhile Char.isDigit)
      | _ => (true, r.takeWhile Char.isDigit)
    else (true, [])
  | [] => (true, [])

/-- JavaScript parseFloat on the character list of the input: skip leading
whitespace, optional sign, integer digits, optional decimal point and
fraction digits, optional exponent; the longest valid numeric head segment is
converted and trailing text is ignored; none models NaN (no digit parsed).
The parsed value is the exact rational value of the numeric literal,
assembled by integer arithmetic and one mkRat (JavaScript then rounds it
to binary floating point; no verified property depends on that rounding).
The special literals Infinity and -Infinity are not modelled: no claim
involves them. -/
def parseFloatChars (cs : List Char) : Option ℚ :=
  let cs1 := cs.dropWhile Char.isWhitespace
  let (neg, cs2) : Bool × List Char :=
    match cs1 with
    | '-' :: r => (true, r)
    | '+' :: r => (false, r)
    | _ => (false, cs1)
  let ip := cs2.takeWhile Char.isDigit
  let cs3 := cs2.dropWhile Char.isDigit
  let (fp, cs4) : List Char × List Char :=
    match cs3 with
    | '.' :: r => (r.takeWhile Char.isDigit, r.dropWhile Char.isDigit)
    | _ => ([], cs3)
  if ip.isEmpty ∧ fp.isEmpty then none
  else
    let mant : Int := (digitsVal ip * 10 ^ fp.length + digitsVal fp : Nat)
    let signedMant : Int := if neg then -mant else mant
    let (epos, ed) := exponentOf cs4
    if epos then
      some (mkRat (signedMant * 10 ^ digitsVal ed) (10 ^ fp.length))
    else
      some (mkRat signedMant (10 ^ fp.length * 10 ^ digitsVal ed))

/-- JavaScript parseFloat on a string. -/
def parseFloat (s : String) : Option ℚ := parseFloatChars s.data

/-! Civil calendar from epoch milliseconds, for getMonth and getFullYear
(UTC).  Standard civil-from-days computation. -/

/-- Days elapsed since 1970-01-01 for an epoch-millisecond instant. -/
def daysFromMs (ms : Nat) : Nat := ms / 86400000

/-- Year, month (1 to 12) and day of month of a day count since the epoch. -/
def civilFromDays (z : Nat) : Nat × Nat × Nat :=
  let z1 := z + 719468
  let era := z1 / 146097
  let doe := z1 % 146097
  let yoe := (doe - doe / 1460 + doe / 36524 - doe / 146096) / 365
  let doy := doe - (365 * yoe + yoe / 4 - yoe / 100)
  let mp := (5 * doy + 2) / 153
  let d := doy - (153 * mp + 2) / 5 + 1
  let m := if mp < 10 then mp + 3 else mp - 9
  let y := yoe + era * 400 + (if m ≤ 2 then 1 else 0)
  (y, m, d)

/-- JavaScript Date.prototype.getMonth of an epoch-millisecond instant:
zero-based month. -/
def getMonthOfMs (ms : Nat) : Nat := (civilFromDays (daysFromMs ms)).2.1 - 1

/-- JavaScript Date.prototype.getFullYear of an epoch-millisecond instant. -/
def getFullYearOfMs (ms : Nat) : Nat := (civilFromDays (daysFromMs ms)).1

/-! The data model. -/

/-- Candidate input collected by the modal form (src/app/(model)/addModal.jsx):
the four controlled text fields.  A field the user never touched is the
empty string, which is exactly the JavaScript falsy case the validation
tests with the bang operator. -/
structure ExpenseInput where
  amount : String
  category : String
  date : String
  description : String
deriving DecidableEq, Repr

/-- Expense record as constructed by handleSave in addModal.jsx:
id = Date.now().toString(), amount = parseFloat of the amount field,
category, date and description trimmed, timestamp = creation instant
(carried as epoch milliseconds, see the header comment). -/
structure Expense where
  id : String
  amount : ℚ
  category : String
  date : String
  description : String
  timestamp : Nat
deriving DecidableEq, Repr

/-- Result of the modal save handler: either a validation alert with the
message shown to the user, or the constructed record handed to onSave. -/
inductive SaveOutcome where
  | validationError (msg : String)
  | saved (e : Expense)
deriving DecidableEq, Repr

/-- handleSave from src/app/(model)/addModal.jsx, lines 50-80: the
required-field check tests the raw strings for falsiness, then the amount
is parsed with parseFloat and rejected when NaN or not greater than zero;
on success the record is built with trimmed strings, the stringified
Date.now() as id and the creation instant as timestamp. -/
def handleSave (inp : ExpenseInput) (now : Nat) : SaveOutcome :=
  if inp.amount = "" ∨ inp.category = "" ∨ inp.date = "" then
    .validationError
      "Please fill in all required fields (Amount, Category, and Date)"
  else
    match parseFloat inp.amount with
    | none => .validationError "Please enter a valid amount greater than 0"
    | some numAmount =>
      if numAmount ≤ 0 then
        .validationError "Please enter a valid amount greater than 0"
      else
        .saved
          { id := jsNumToString now
            amount := numAmount
            category := jsTrim inp.category
            date := jsTrim inp.date
            description := jsTrim inp.description
            timestamp := now }

/-! The dashboard (src/unnamed/part_000). -/

/-- Content of AsyncStorage under the key "expenses": see the header
comment. -/
inductive StorageValue where
  | absent
  | data (l : List Expense)
  | malformed
deriving DecidableEq, Repr

/-- Dashboard state: the in-memory collection (the expenses React state)
and the durable storage entry. -/
structure AppState where
  expenses : List Expense
  storage : StorageValue
deriving DecidableEq, Repr

/-- saveExpenses, part_000 lines 48-55: JSON.stringify the list and write
it under the single key; a successful write replaces the entry wholesale. -/
def saveExpenses (l : List Expense) : StorageValue := .data l

/-- handleSaveExpense, part_000 lines 57-61: prepend the new record to the
in-memory collection and persist the updated collection. -/
def handleSaveExpense (e : Expense) (st : AppState) : AppState :=
  { expenses := e :: st.expenses
    storage := saveExpenses (e :: st.expenses) }

/-- deleteExpense, part_000 lines 63-80, confirmed branch (the Delete
button of the confirmation alert; the Cancel branch changes nothing):
filter out the records whose id equals the argument and persist the
result. -/
def deleteExpenseConfirmed (id : String) (st : AppState) : AppState :=
  let updated := st.expenses.filter (fun e => e.id ≠ id)
  { expenses := updated, storage := saveExpenses updated }

/-- Comparator of loadExpenses: the JavaScript comparator
new Date(b.timestamp) - new Date(a.timestamp) orders timestamps
descending; a before b is allowed exactly when the timestamp of a is at
least the timestamp of b. -/
def tsDescLe (a b : Expense) : Bool := decide (b.timestamp ≤ a.timestamp)

/-- The sort of loadExpenses.  Array.prototype.sort is a stable sort
(ECMAScript 2019 and later), modelled by the stable mergeSort. -/
def sortByTimestampDesc (l : List Expense) : List Expense :=
  l.mergeSort tsDescLe

/-- Result of loadExpenses: the updated dashboard state and whether the
failure alert was shown to the user. -/
structure LoadOutcome where
  state : AppState
  readError : Bool
deriving DecidableEq, Repr

/-- loadExpenses, part_000 lines 28-46: getItem returning null leaves the
in-memory collection as it was; a well-formed payload is parsed and sorted
newest first; a payload on which JSON.parse throws lands in the catch
branch, which alerts the user and leaves the in-memory collection as it
was.  Storage is never written by a load. -/
def loadExpenses (st : AppState) : LoadOutcome :=
  match st.storage with
  | .absent => ⟨st, false⟩
  | .data l => ⟨{ st with expenses := sortByTimestampDesc l }, false⟩
  | .malformed => ⟨st, true⟩

/-- The whole save flow: the modal validates and constructs the record
(handleSave), and on success the dashboard prepends and persists it
(onSave = handleSaveExpense).  On a validation error nothing is called
and the state is untouched. -/
def modalSave (inp : ExpenseInput) (now : Nat) (st : AppState) :
    AppState × SaveOutcome :=
  match handleSave inp now with
  | .validationError m => (st, .validationError m)
  | .saved e => (handleSaveExpense e st, .saved e)

/-- Snapshot: the collection as rendered by the FlatList, which displays
the expenses state in order. -/
def snapshot (st : AppState) : List Expense := st.expenses

/-- Aggregates returned by getExpenseStats. -/
structure Stats where
  total : ℚ
  monthly : ℚ
  count : Nat
  monthlyCount : Nat
deriving DecidableEq, Repr

/-- Month and year filter of getExpenseStats: the record timestamp parsed
back to a date has the queried month and year. -/
def inMonth (m y : Nat) (e : Expense) : Bool :=
  getMonthOfMs e.timestamp == m && getFullYearOfMs e.timestamp == y

/-- getExpenseStats, part_000 lines 136-154: reduce the amounts, filter by
the reference month and year of the current instant (passed here as the
two parameters, since the source reads them from new Date()), reduce the
filtered amounts, and return the four aggregates. -/
def getExpenseStats (l : List Expense) (thisMonth thisYear : Nat) : Stats :=
  let totalExpenses := l.foldl (fun sum e => sum + e.amount) 0
  let monthlyExpenses := l.filter (inMonth thisMonth thisYear)
  let monthlyTotal := monthlyExpenses.foldl (fun sum e => sum + e.amount) 0
  { total := totalExpenses
    monthly := monthlyTotal
    count := l.length
    monthlyCount := monthlyExpenses.length }

/-! Reachable dashboard states.  The process boots with an empty in-memory
collection and runs loadExpenses on whatever the storage holds; at boot
every stored record was written by an earlier run of the app, so its
timestamp is a past instant and its id is its stringified creation
instant, which the two boot hypotheses record.  Afterwards the user can
save a new expense (at a current instant no earlier than every instant
already observed, the wall clock being monotone), confirm a deletion, or
pull to refresh.  The Nat component is the latest instant observed so
far. -/
inductive Reachable : AppState → Nat → Prop
  | boot (s0 : StorageValue) (c0 : Nat)
      (hts : ∀ l, s0 = .data l → ∀ e ∈ l, e.timestamp ≤ c0)
      (hid : ∀ l, s0 = .data l → ∀ e ∈ l, e.id = jsNumToString e.timestamp) :
      Reachable (loadExpenses ⟨[], s0⟩).state c0
  | save (st : AppState) (clock : Nat) (inp : ExpenseInput) (now : Nat)
      (hr : Reachable st clock) (hm : clock ≤ now) :
      Reachable (modalSave inp now st).1 now
  | del (st : AppState) (clock : Nat) (id : String)
      (hr : Reachable st clock) :
      Reachable (deleteExpenseConfirmed id st) clock
  | refresh (st : AppState) (clock : Nat) (hr : Reachable st clock) :
      Reachable (loadExpenses st).state clock

/-- Invariant carried by every reachable dashboard state: the rendered
collection is ordered by timestamp descending; every record (in memory and
in a well-formed storage payload) was created no later than the latest
observed instant and carries its stringified creation instant as id. -/
def stateInv (st : AppState) (c : Nat) : Prop :=
  st.expenses.Pairwise (fun a b => b.timestamp ≤ a.timestamp) ∧
  (∀ e ∈ st.expenses,
    e.timestamp ≤ c ∧ e.id = jsNumToString e.timestamp) ∧
  (∀ l, st.storage = .data l →
    ∀ e ∈ l, e.timestamp ≤ c ∧ e.id = jsNumToString e.timestamp)

/-! Helper lemmas. -/

theorem digitChar_toNat_sub {n : Nat} (h : n < 10) :
    (Nat.digitChar n).toNat - 48 = n := by
  interval_cases n <;> decide

theorem digitsVal_append_singleton (ds : List Char) (c : Char) :
    digitsVal (ds ++ [c]) = 10 * digitsVal ds + (c.toNat - 48) := by
  simp [digitsVal, List.foldl_append]

theorem digitsVal_toDecimalCore :
    ∀ fuel n : Nat, n < 10 ^ fuel → digitsVal (toDecimalCore fuel n) = n := by
  intro fuel
  induction fuel with
  | zero =>
    intro n h
    have h0 : n = 0 := by simpa using Nat.lt_one_iff.mp (by simpa using h)
    simp [h0, toDecimalCore, digitsVal]
  | succ fuel ih =>
    intro n h
    by_cases h10 : n < 10
    · simp [toDecimalCore, h10, digitsVal, digitChar_toNat_sub h10]
    · have hdiv : n / 10 < 10 ^ fuel := by
        have : n < 10 * 10 ^ fuel := by
          simpa [Nat.pow_succ, Nat.mul_comm] using h
        omega
      simp only [toDecimalCore, if_neg h10, digitsVal_append_singleton, ih _ hdiv,
        digitChar_toNat_sub (Nat.mod_lt n (by omega))]
      omega

theorem lt_ten_pow_succ (n : Nat) : n < 10 ^ (n + 1) := by
  calc n < 2 ^ n * 10 := by
          have := Nat.lt_two_pow n
          calc n < 2 ^ n := this
            _ ≤ 2 ^ n * 10 := by omega
    _ ≤ 10 ^ n * 10 := by
          have : 2 ^ n ≤ 10 ^ n := Nat.pow_le_pow_left (by omega) n
          omega
    _ = 10 ^ (n + 1) := by rw [Nat.pow_succ]

theorem jsNumToString_inj {a b : Nat} (h : jsNumToString a = jsNumToString b) :
    a = b := by
  have hdata : toDecimalCore (a + 1) a = toDecimalCore (b + 1) b :=
    congrArg String.data h
  have ha := digitsVal_toDecimalCore (a + 1) a (lt_ten_pow_succ a)
  have hb := digitsVal_toDecimalCore (b + 1) b (lt_ten_pow_succ b)
  rw [← ha, ← hb, hdata]

theorem foldl_add_amount (l : List Expense) (q : ℚ) :
    l.foldl (fun sum e => sum + e.amount) q =
      q + (l.map (fun e => e.amount)).sum := by
  induction l generalizing q with
  | nil => simp
  | cons x xs ih => simp [ih, add_assoc]

theorem tsDescLe_trans :
    ∀ a b c : Expense, tsDescLe a b = true → tsDescLe b c = true →
      tsDescLe a c = true := by
  intro a b c
  simp only [tsDescLe, decide_eq_true_eq]
  omega

theorem tsDescLe_total :
    ∀ a b : Expense, (tsDescLe a b || tsDescLe b a) = true := by
  intro a b
  simp only [tsDescLe, Bool.or_eq_true, decide_eq_true_eq]
  omega

theorem sortByTimestampDesc_sorted (l : List Expense) :
    (sortByTimestampDesc l).Pairwise
      (fun a b => b.timestamp ≤ a.timestamp) := by
  have hs := List.sorted_mergeSort tsDescLe_trans tsDescLe_total l
  exact hs.imp (by simp [tsDescLe])

theorem mem_sortByTimestampDesc {e : Expense} {l : List Expense} :
    e ∈ sortByTimestampDesc l ↔ e ∈ l := by
  simp [sortByTimestampDesc, List.mem_mergeSort]

theorem handleSave_saved {inp : ExpenseInput} {now : Nat} {e : Expense}
    (h : handleSave inp now = .saved e) :
    ∃ a, parseFloat inp.amount = some a ∧ ¬ a ≤ 0 ∧
      e = { id := jsNumToString now, amount := a,
            category := jsTrim inp.category, date := jsTrim inp.date,
            description := jsTrim inp.description, timestamp := now } := by
  unfold handleSave at h
  split at h
  · exact absurd h (by simp)
  · split at h
    · exact absurd h (by simp)
    · split at h
      · exact absurd h (by simp)
      · rename_i a hp hle
        exact ⟨a, hp, hle, by cases h; rfl⟩

theorem handleSave_succeeds {inp : ExpenseInput} {now : Nat} {a : ℚ}
    (hp : parseFloat inp.amount = some a) (ha : 0 < a)
    (hAm : inp.amount ≠ "") (hc : inp.category ≠ "") (hd : inp.date ≠ "") :
    handleSave inp now =
      .saved { id := jsNumToString now, amount := a,
               category := jsTrim inp.category, date := jsTrim inp.date,
               description := jsTrim inp.description, timestamp := now } := by
  unfold handleSave
  rw [if_neg (by simp [hAm, hc, hd]), hp]
  dsimp only
  rw [if_neg (not_le.mpr ha)]

theorem handleSave_invalid {inp : ExpenseInput} {now : Nat}
    (h : inp.amount = "" ∨ inp.category = "" ∨ inp.date = "" ∨
      parseFloat inp.amount = none ∨
      ∃ a, parseFloat inp.amount = some a ∧ a ≤ 0) :
    ∃ msg, handleSave inp now = .validationError msg := by
  unfold handleSave
  by_cases h1 : inp.amount = "" ∨ inp.category = "" ∨ inp.date = ""
  · exact ⟨_, if_pos h1⟩
  · rw [if_neg h1]
    rcases h with h | h | h | h | ⟨a, hp, ha⟩
    · exact absurd (Or.inl h) h1
    · exact absurd (Or.inr (Or.inl h)) h1
    · exact absurd (Or.inr (Or.inr h)) h1
    · rw [h]; exact ⟨_, rfl⟩
    · rw [hp]; exact ⟨_, if_pos ha⟩

theorem stateInv_mono {st : AppState} {c c2 : Nat}
    (h : stateInv st c) (hc : c ≤ c2) : stateInv st c2 :=
  ⟨h.1,
   fun e he => ⟨le_trans (h.2.1 e he).1 hc, (h.2.1 e he).2⟩,
   fun l hl e he => ⟨le_trans (h.2.2 l hl e he).1 hc, (h.2.2 l hl e he).2⟩⟩

theorem reachable_stateInv {st : AppState} {c : Nat} (h : Reachable st c) :
    stateInv st c := by
  induction h with
  | boot s0 c0 hts hid =>
    cases s0 with
    | absent =>
      exact ⟨List.Pairwise.nil, by simp [loadExpenses], by simp [loadExpenses]⟩
    | malformed =>
      exact ⟨List.Pairwise.nil, by simp [loadExpenses], by simp [loadExpenses]⟩
    | data l =>
      refine ⟨sortByTimestampDesc_sorted l, ?_, ?_⟩
      · intro e he
        have hm : e ∈ l := mem_sortByTimestampDesc.mp he
        exact ⟨hts l rfl e hm, hid l rfl e hm⟩
      · intro l2 hl2 e he
        cases hl2
        exact ⟨hts _ rfl e he, hid _ rfl e he⟩
  | save st clock inp now hr hm ih =>
    cases hh : handleSave inp now with
    | validationError m =>
      simpa [modalSave, hh] using stateInv_mono ih hm
    | saved e =>
      obtain ⟨a, hp, hle, he⟩ := handleSave_saved hh
      have hts : e.timestamp = now := by rw [he]
      have hid : e.id = jsNumToString e.timestamp := by rw [he]
      simp only [modalSave, hh, handleSaveExpense, saveExpenses]
      refine ⟨?_, ?_, ?_⟩
      · exact List.Pairwise.cons
          (fun b hb => by rw [hts]; exact le_trans (ih.2.1 b hb).1 hm) ih.1
      · intro e2 he2
        rcases List.mem_cons.mp he2 with h2 | h2
        · subst h2; exact ⟨le_of_eq hts, hid⟩
        · exact ⟨le_trans (ih.2.1 e2 h2).1 hm, (ih.2.1 e2 h2).2⟩
      · intro l hl e2 he2
        cases hl
        rcases List.mem_cons.mp he2 with h2 | h2
        · subst h2; exact ⟨le_of_eq hts, hid⟩
        · exact ⟨le_trans (ih.2.1 e2 h2).1 hm, (ih.2.1 e2 h2).2⟩
  | del st clock id hr ih =>
    simp only [deleteExpenseConfirmed, saveExpenses]
    refine ⟨ih.1.sublist (List.filter_sublist st.expenses), ?_, ?_⟩
    · intro e he
      exact ih.2.1 e (List.mem_of_mem_filter he)
    · intro l hl e he
      cases hl
      exact ih.2.1 e (List.mem_of_mem_filter he)
  | refresh st clock hr ih =>
    cases hs : st.storage with
    | absent => simpa [loadExpenses, hs] using ih
    | malformed => simpa [loadExpenses, hs] using ih
    | data l =>
      simp only [loadExpenses, hs]
      refine ⟨sortByTimestampDesc_sorted l, ?_, ?_⟩
      · intro e he
        exact ih.2.2 l hs e (mem_sortByTimestampDesc.mp he)
      · intro l2 hl2 e he
        cases hl2
        exact ih.2.2 _ hs e he

theorem filter_ne_of_not_mem {i : String} {l : List Expense}
    (h : ∀ e ∈ l, e.id ≠ i) : l.filter (fun e => e.id ≠ i) = l :=
  List.filter_eq_self.mpr (by simpa using h)

theorem filter_ne_length {i : String} :
    ∀ l : List Expense, (l.map (fun e => e.id)).Nodup →
      ∀ e0 ∈ l, e0.id = i →
        (l.filter (fun e => e.id ≠ i)).length + 1 = l.length := by
  intro l
  induction l with
  | nil => intro _ e0 h; simp at h
  | cons x xs ih =>
    intro hnd e0 he0 hid
    have hx_not : x.id ∉ xs.map (fun e => e.id) :=
      (List.nodup_cons.mp (by simpa using hnd)).1
    have hnd2 : (xs.map (fun e => e.id)).Nodup :=
      (List.nodup_cons.mp (by simpa using hnd)).2
    rcases List.mem_cons.mp he0 with h0 | h0
    · have hxi : x.id = i := by rw [← h0]; exact hid
      have hxs : ∀ e ∈ xs, e.id ≠ i := by
        intro e he heq
        exact hx_not (List.mem_map.mpr ⟨e, he, heq.trans hxi.symm⟩)
      have h1 : (x :: xs).filter (fun e => e.id ≠ i) =
          xs.filter (fun e => e.id ≠ i) := by
        simp [List.filter_cons, hxi]
      rw [h1, filter_ne_of_not_mem hxs]
      simp
    · have hxne : x.id ≠ i := fun hxi =>
        hx_not (List.mem_map.mpr ⟨e0, h0, hid.trans hxi.symm⟩)
      have h1 : (x :: xs).filter (fun e => e.id ≠ i) =
          x :: xs.filter (fun e => e.id ≠ i) := by
        simp [List.filter_cons, hxne]
      have h2 := ih hnd2 e0 h0 hid
      rw [h1]
      simp only [List.length_cons]
      omega

/-! The claims. -/

/-- Claim C1: for every candidate input in which the amount is missing,
non-numeric (parseFloat yields NaN), or not strictly greater than 0, or
the category is missing, or the date is missing, the save flow fails with
a validation alert and neither the in-memory collection nor durable
storage is changed. -/
theorem C1_validation_rejects (inp : ExpenseInput) (now : Nat) (st : AppState)
    (h : inp.amount = "" ∨ inp.category = "" ∨ inp.date = "" ∨
      parseFloat inp.amount = none ∨
      ∃ a, parseFloat inp.amount = some a ∧ a ≤ 0) :
    (modalSave inp now st).1 = st ∧
    ∃ msg, (modalSave inp now st).2 = .validationError msg := by
  obtain ⟨msg, hmsg⟩ := @handleSave_invalid inp now h
  exact ⟨by simp [modalSave, hmsg], msg, by simp [modalSave, hmsg]⟩

theorem C1_validation_witness :
    (modalSave ⟨"", "Food", "03/15/2024", ""⟩ 0 ⟨[], .absent⟩).1 =
      ⟨[], .absent⟩ ∧
    ∃ msg, (modalSave ⟨"", "Food", "03/15/2024", ""⟩ 0 ⟨[], .absent⟩).2 =
      .validationError msg :=
  C1_validation_rejects ⟨"", "Food", "03/15/2024", ""⟩ 0 ⟨[], .absent⟩
    (Or.inl rfl)

/-- Claim C3: after either mutating operation (append via handleSaveExpense
or remove via the confirmed deleteExpense) completes, the value stored
under the single key is exactly the serialization (saveExpenses) of the
current in-memory collection; a write in the model replaces the entry
atomically, so no torn intermediate value is observable. -/
theorem C3_persisted_equals_memory :
    (∀ (e : Expense) (st : AppState),
      (handleSaveExpense e st).storage =
        saveExpenses (handleSaveExpense e st).expenses) ∧
    (∀ (i : String) (st : AppState),
      (deleteExpenseConfirmed i st).storage =
        saveExpenses (deleteExpenseConfirmed i st).expenses) :=
  ⟨fun _ _ => rfl, fun _ _ => rfl⟩

/-- Claim C5: at process start (empty in-memory collection), a load with
no prior durable data leaves the collection empty and reports no error; a
load of a payload that cannot be deserialized reports the read error to
the caller (the failure alert) and the in-memory collection stays empty
rather than the process crashing. -/
theorem C5_load_missing_and_malformed :
    loadExpenses ⟨[], .absent⟩ = ⟨⟨[], .absent⟩, false⟩ ∧
    loadExpenses ⟨[], .malformed⟩ = ⟨⟨[], .malformed⟩, true⟩ :=
  ⟨rfl, rfl⟩

/-- Claim C6: getExpenseStats is a pure function of the collection whose
total is the sum of all amounts, whose monthly total is the sum of the
amounts of the records whose timestamp falls in the reference month and
year, whose counts are the corresponding cardinalities, and whose monthly
aggregates are zero when no record falls in that month. -/
theorem C6_stats_correct (l : List Expense) (m y : Nat) :
    (getExpenseStats l m y).total = (l.map (fun e => e.amount)).sum ∧
    (getExpenseStats l m y).monthly =
      ((l.filter (inMonth m y)).map (fun e => e.amount)).sum ∧
    (getExpenseStats l m y).count = l.length ∧
    (getExpenseStats l m y).monthlyCount = (l.filter (inMonth m y)).length ∧
    ((∀ e ∈ l, inMonth m y e = false) →
      (getExpenseStats l m y).monthly = 0 ∧
      (getExpenseStats l m y).monthlyCount = 0) := by
  refine ⟨?_, ?_, rfl, rfl, ?_⟩
  · have h := foldl_add_amount l 0
    rw [zero_add] at h
    exact h
  · have h := foldl_add_amount (l.filter (inMonth m y)) 0
    rw [zero_add] at h
    exact h
  · intro hnone
    have hf : l.filter (inMonth m y) = [] := by
      simpa using List.filter_eq_nil_iff.mpr (by simpa using hnone)
    constructor
    · show (l.filter (inMonth m y)).foldl (fun sum e => sum + e.amount) 0 = 0
      rw [hf]
      rfl
    · show (l.filter (inMonth m y)).length = 0
      rw [hf]
      rfl

theorem C6_stats_witness :
    (getExpenseStats [⟨"0", 5, "Food", "01/01/1970", "", 0⟩] 2 2024).monthly
      = 0 ∧
    (getExpenseStats [⟨"0", 5, "Food", "01/01/1970", "", 0⟩] 2
      2024).monthlyCount = 0 :=
  (C6_stats_correct [⟨"0", 5, "Food", "01/01/1970", "", 0⟩] 2 2024).2.2.2.2
    (by decide)

/-- Claim C7: under the id-uniqueness invariant the claim presupposes, a
confirmed deletion of a present id removes exactly the record with that id
and no other and persists the resulting collection; deletion of an absent
id leaves the in-memory collection unchanged (the unchanged collection is
re-persisted) and raises no error (the model has no failure outcome for
deletion). -/
theorem C7_delete_behavior (st : AppState) (i : String)
    (hnd : ((snapshot st).map (fun e => e.id)).Nodup) :
    ((∀ e ∈ snapshot st, e.id ≠ i) →
      deleteExpenseConfirmed i st =
        ⟨snapshot st, saveExpenses (snapshot st)⟩) ∧
    (∀ e0, e0 ∈ snapshot st → e0.id = i →
      e0 ∉ snapshot (deleteExpenseConfirmed i st) ∧
      (∀ e2 ∈ snapshot st, e2 ≠ e0 →
        e2 ∈ snapshot (deleteExpenseConfirmed i st)) ∧
      (snapshot (deleteExpenseConfirmed i st)).length + 1 =
        (snapshot st).length) ∧
    (∀ e2, e2 ∈ snapshot (deleteExpenseConfirmed i st) → e2 ∈ snapshot st) ∧
    (deleteExpenseConfirmed i st).storage =
      saveExpenses (snapshot (deleteExpenseConfirmed i st)) := by
  refine ⟨?_, ?_, ?_, rfl⟩
  · intro habs
    have h := filter_ne_of_not_mem habs
    simp only [snapshot] at h
    simp only [deleteExpenseConfirmed, snapshot, saveExpenses, h]
  · intro e0 he0 hid
    refine ⟨?_, ?_, ?_⟩
    · intro hmem
      have := List.of_mem_filter hmem
      simp only [decide_eq_true_eq] at this
      exact this hid
    · intro e2 he2 hne
      refine List.mem_filter.mpr ⟨he2, ?_⟩
      simp only [decide_eq_true_eq]
      intro heq
      exact hne (List.inj_on_of_nodup_map hnd he2 he0 (heq.trans hid.symm))
    · exact filter_ne_length (snapshot st) hnd e0 he0 hid
  · intro e2 he2
    exact List.mem_of_mem_filter he2

theorem C7_delete_witness :
    (⟨"1", 3, "Food", "03/15/2024", "", 1⟩ : Expense) ∉
      snapshot (deleteExpenseConfirmed "1"
        ⟨[⟨"1", 3, "Food", "03/15/2024", "", 1⟩,
          ⟨"2", 4, "Transport", "03/16/2024", "", 2⟩], .absent⟩) ∧
    (∀ e2 ∈ snapshot (⟨[⟨"1", 3, "Food", "03/15/2024", "", 1⟩,
        ⟨"2", 4, "Transport", "03/16/2024", "", 2⟩], .absent⟩ : AppState),
      e2 ≠ ⟨"1", 3, "Food", "03/15/2024", "", 1⟩ →
      e2 ∈ snapshot (deleteExpenseConfirmed "1"
        ⟨[⟨"1", 3, "Food", "03/15/2024", "", 1⟩,
          ⟨"2", 4, "Transport", "03/16/2024", "", 2⟩], .absent⟩)) ∧
    (snapshot (deleteExpenseConfirmed "1"
        ⟨[⟨"1", 3, "Food", "03/15/2024", "", 1⟩,
          ⟨"2", 4, "Transport", "03/16/2024", "", 2⟩], .absent⟩)).length + 1 =
      (snapshot (⟨[⟨"1", 3, "Food", "03/15/2024", "", 1⟩,
        ⟨"2", 4, "Transport", "03/16/2024", "", 2⟩],
        .absent⟩ : AppState)).length :=
  (C7_delete_behavior
    ⟨[⟨"1", 3, "Food", "03/15/2024", "", 1⟩,
      ⟨"2", 4, "Transport", "03/16/2024", "", 2⟩], .absent⟩ "1"
    (by decide)).2.1
    ⟨"1", 3, "Food", "03/15/2024", "", 1⟩ (by decide) (by decide)

/-- Claim C10: handleSave validates the untrimmed field strings (only the
empty string is rejected as missing) and stores the trimmed strings, so a
category or date consisting only of whitespace passes validation and the
record is stored with that field equal to the empty string. -/
theorem C10_trim_after_validation (inp : ExpenseInput) (now : Nat) (a : ℚ)
    (hp : parseFloat inp.amount = some a) (ha : 0 < a)
    (hAm : inp.amount ≠ "") (hc : inp.category ≠ "") (hd : inp.date ≠ "") :
    ∃ e, handleSave inp now = .saved e ∧
      e.category = jsTrim inp.category ∧ e.date = jsTrim inp.date ∧
      e.description = jsTrim inp.description ∧
      (jsTrim inp.category = "" → e.category = "") ∧
      (jsTrim inp.date = "" → e.date = "") :=
  ⟨_, handleSave_succeeds hp ha hAm hc hd, rfl, rfl, rfl,
    fun h => h, fun h => h⟩

theorem C10_trim_witness :
    ∃ e, handleSave ⟨"5", " ", " 01/01/2024 ", " note "⟩ 3 = .saved e ∧
      e.category = "" ∧ e.date = "01/01/2024" := by
  obtain ⟨e, hsv, hcat, hdate, -, -, -⟩ :=
    C10_trim_after_validation ⟨"5", " ", " 01/01/2024 ", " note "⟩ 3 5
      (by decide) (by decide) (by decide) (by decide) (by decide)
  exact ⟨e, hsv, by rw [hcat]; decide, by rw [hdate]; decide⟩

/-- Refutation for claim C2 at a concrete input: with one record already
created at instant 5 (id "5"), a valid candidate whose category is
" Food " appended at the same instant 5 yields a stored head record whose
category is the trimmed string "Food", not the candidate string, and
whose id "5" duplicates the existing id, so the new id is not unique. -/
theorem C2_append_counterexample :
    ((snapshot (modalSave ⟨"7", " Food ", "01/02/2024", ""⟩ 5
      (modalSave ⟨"5", "Shopping", "01/01/2024", ""⟩ 5 ⟨[], .absent⟩).1).1).map
        (fun e => e.category) = ["Food", "Shopping"]) ∧
    "Food" ≠ " Food " ∧
    ((snapshot (modalSave ⟨"7", " Food ", "01/02/2024", ""⟩ 5
      (modalSave ⟨"5", "Shopping", "01/01/2024", ""⟩ 5 ⟨[], .absent⟩).1).1).map
        (fun e => e.id) = ["5", "5"]) ∧
    ¬ ((snapshot (modalSave ⟨"7", " Food ", "01/02/2024", ""⟩ 5
      (modalSave ⟨"5", "Shopping", "01/01/2024", ""⟩ 5 ⟨[], .absent⟩).1).1).map
        (fun e => e.id)).Nodup := by
  decide

/-- Claim C2 (amended): for every valid candidate input, the save flow
assigns as id the creation instant rendered in decimal (which is fresh
provided no existing record was created at the same instant) and the
creation instant as timestamp, prepends the new record, and the snapshot
afterwards is the old snapshot with exactly one new head record whose
amount is the parsed candidate amount and whose category, date and
description are the trimmed candidate strings. -/
theorem C2_append_amended (inp : ExpenseInput) (now : Nat) (st : AppState)
    (a : ℚ) (hp : parseFloat inp.amount = some a) (ha : 0 < a)
    (hAm : inp.amount ≠ "") (hc : inp.category ≠ "") (hd : inp.date ≠ "") :
    ∃ e, (modalSave inp now st).2 = .saved e ∧
      snapshot (modalSave inp now st).1 = e :: snapshot st ∧
      e.id = jsNumToString now ∧ e.timestamp = now ∧
      e.amount = a ∧ e.category = jsTrim inp.category ∧
      e.date = jsTrim inp.date ∧ e.description = jsTrim inp.description ∧
      ((∀ e2 ∈ snapshot st,
          e2.timestamp ≠ now ∧ e2.id = jsNumToString e2.timestamp) →
        e.id ∉ (snapshot st).map (fun e2 => e2.id)) := by
  have hs := @handleSave_succeeds inp now a hp ha hAm hc hd
  refine ⟨{ id := jsNumToString now, amount := a,
            category := jsTrim inp.category, date := jsTrim inp.date,
            description := jsTrim inp.description, timestamp := now },
    by simp [modalSave, hs],
    by simp [modalSave, hs, handleSaveExpense, snapshot],
    rfl, rfl, rfl, rfl, rfl, rfl, ?_⟩
  intro hdist hmem
  obtain ⟨e2, he2, hide2⟩ := List.mem_map.mp hmem
  exact (hdist e2 he2).1
    (jsNumToString_inj ((hdist e2 he2).2.symm.trans hide2))

theorem C2_append_witness :
    ∃ e, (modalSave ⟨"42.50", "Food", "03/15/2024", ""⟩ 1000
        ⟨[], .absent⟩).2 = .saved e ∧
      snapshot (modalSave ⟨"42.50", "Food", "03/15/2024", ""⟩ 1000
        ⟨[], .absent⟩).1 = e :: snapshot ⟨[], .absent⟩ ∧
      e.id = jsNumToString 1000 ∧ e.timestamp = 1000 ∧
      e.amount = mkRat 85 2 ∧ e.category = jsTrim "Food" ∧
      e.date = jsTrim "03/15/2024" ∧ e.description = jsTrim "" ∧
      ((∀ e2 ∈ snapshot (⟨[], .absent⟩ : AppState),
          e2.timestamp ≠ 1000 ∧ e2.id = jsNumToString e2.timestamp) →
        e.id ∉ (snapshot (⟨[], .absent⟩ : AppState)).map (fun e2 => e2.id)) :=
  C2_append_amended ⟨"42.50", "Food", "03/15/2024", ""⟩ 1000 ⟨[], .absent⟩
    (mkRat 85 2) (by decide) (by decide) (by decide) (by decide) (by decide)

/-- Refutation for claim C4 at a concrete input: two valid candidates
appended at the same instant 1000 (Food first, Transport second) produce a
snapshot with equal timestamps in which the later-inserted Transport
record comes first, so ties between equal timestamps are broken by most
recent insertion first, not by insertion order. -/
theorem C4_tie_order_counterexample :
    ((snapshot (modalSave ⟨"10", "Transport", "03/16/2024", ""⟩ 1000
      (modalSave ⟨"42.50", "Food", "03/15/2024", ""⟩ 1000
        ⟨[], .absent⟩).1).1).map (fun e => e.timestamp) = [1000, 1000]) ∧
    ((snapshot (modalSave ⟨"10", "Transport", "03/16/2024", ""⟩ 1000
      (modalSave ⟨"42.50", "Food", "03/15/2024", ""⟩ 1000
        ⟨[], .absent⟩).1).1).map (fun e => e.category) =
      ["Transport", "Food"]) ∧
    ((snapshot (modalSave ⟨"10", "Transport", "03/16/2024", ""⟩ 1000
      (modalSave ⟨"42.50", "Food", "03/15/2024", ""⟩ 1000
        ⟨[], .absent⟩).1).1).map (fun e => e.category) ≠
      ["Food", "Transport"]) := by
  decide

/-- Claim C4 (amended): for every reachable collection state the snapshot
is ordered by timestamp descending, with ties between equal timestamps
broken by most recent insertion first (appends prepend, and the load-time
sort is stable on the stored reverse-chronological order); in particular,
after appending a second, newer record the snapshot starts with the newer
record followed by the older one. -/
theorem C4_snapshot_order_amended :
    (∀ (st : AppState) (c : Nat), Reachable st c →
      (snapshot st).Pairwise (fun a b => b.timestamp ≤ a.timestamp)) ∧
    ((snapshot (modalSave ⟨"10", "Transport", "03/16/2024", ""⟩ 2000
      (modalSave ⟨"42.50", "Food", "03/15/2024", ""⟩ 1000
        ⟨[], .absent⟩).1).1).map (fun e => e.category) =
      ["Transport", "Food"]) ∧
    ((snapshot (modalSave ⟨"10", "Transport", "03/16/2024", ""⟩ 2000
      (modalSave ⟨"42.50", "Food", "03/15/2024", ""⟩ 1000
        ⟨[], .absent⟩).1).1).map (fun e => e.timestamp) = [2000, 1000]) := by
  refine ⟨?_, by decide, by decide⟩
  intro st c h
  exact (reachable_stateInv h).1

theorem reachable_demo :
    Reachable (modalSave ⟨"10", "Transport", "03/16/2024", ""⟩ 2000
      (modalSave ⟨"42.50", "Food", "03/15/2024", ""⟩ 1000
        ⟨[], .absent⟩).1).1 2000 :=
  Reachable.save _ 1000 ⟨"10", "Transport", "03/16/2024", ""⟩ 2000
    (Reachable.save _ 0 ⟨"42.50", "Food", "03/15/2024", ""⟩ 1000
      (Reachable.boot .absent 0 (fun l h => by cases h)
        (fun l h => by cases h))
      (by omega))
    (by omega)

theorem C4_snapshot_order_witness :
    (snapshot (modalSave ⟨"10", "Transport", "03/16/2024", ""⟩ 2000
      (modalSave ⟨"42.50", "Food", "03/15/2024", ""⟩ 1000
        ⟨[], .absent⟩).1).1).Pairwise
      (fun a b => b.timestamp ≤ a.timestamp) :=
  C4_snapshot_order_amended.1 _ 2000 reachable_demo

/-- Refutation for claim C8 at a concrete input: appending a valid
candidate whose category is " Food " and reloading from durable storage
yields a collection whose only record has category "Food", so no record
equals the candidate in the category field. -/
theorem C8_roundtrip_counterexample :
    ((loadExpenses ⟨[],
      (modalSave ⟨"7", " Food ", "01/02/2024", ""⟩ 5
        ⟨[], .absent⟩).1.storage⟩).state.expenses.map
          (fun e => e.category) = ["Food"]) ∧
    "Food" ≠ " Food " := by
  have hst : (modalSave ⟨"7", " Food ", "01/02/2024", ""⟩ 5
      ⟨[], .absent⟩).1.storage =
      .data [⟨"5", 7, "Food", "01/02/2024", "", 5⟩] := by decide
  rw [hst]
  refine ⟨?_, by decide⟩
  show (sortByTimestampDesc [⟨"5", 7, "Food", "01/02/2024", "", 5⟩]).map
    (fun e => e.category) = ["Food"]
  simp [sortByTimestampDesc]

/-- Claim C8 (amended): for every valid candidate x, appending x and then
reloading the collection from durable storage (a process restart boots
with an empty in-memory collection) yields a collection containing a
record whose amount is the parsed amount of x and whose category, date and
description are the strings of x with leading and trailing whitespace
removed (id and timestamp excepted). -/
theorem C8_roundtrip_amended (inp : ExpenseInput) (now : Nat) (st : AppState)
    (a : ℚ) (hp : parseFloat inp.amount = some a) (ha : 0 < a)
    (hAm : inp.amount ≠ "") (hc : inp.category ≠ "") (hd : inp.date ≠ "") :
    ∃ e, e ∈ (loadExpenses ⟨[],
        (modalSave inp now st).1.storage⟩).state.expenses ∧
      e.amount = a ∧ e.category = jsTrim inp.category ∧
      e.date = jsTrim inp.date ∧ e.description = jsTrim inp.description := by
  have hs := @handleSave_succeeds inp now a hp ha hAm hc hd
  have hstor : (modalSave inp now st).1.storage =
      .data ({ id := jsNumToString now, amount := a,
               category := jsTrim inp.category, date := jsTrim inp.date,
               description := jsTrim inp.description,
               timestamp := now } :: st.expenses) := by
    simp [modalSave, hs, handleSaveExpense, saveExpenses]
  refine ⟨{ id := jsNumToString now, amount := a,
            category := jsTrim inp.category, date := jsTrim inp.date,
            description := jsTrim inp.description, timestamp := now },
    ?_, rfl, rfl, rfl, rfl⟩
  rw [hstor]
  exact mem_sortByTimestampDesc.mpr (List.mem_cons_self _ _)

theorem C8_roundtrip_witness :
    ∃ e, e ∈ (loadExpenses ⟨[],
        (modalSave ⟨"42.50", "Food", "03/15/2024", ""⟩ 1000
          ⟨[], .absent⟩).1.storage⟩).state.expenses ∧
      e.amount = mkRat 85 2 ∧ e.category = jsTrim "Food" ∧
      e.date = jsTrim "03/15/2024" ∧ e.description = jsTrim "" :=
  C8_roundtrip_amended ⟨"42.50", "Food", "03/15/2024", ""⟩ 1000 ⟨[], .absent⟩
    (mkRat 85 2) (by decide) (by decide) (by decide) (by decide) (by decide)

/-- Refutation for claim C9 at a concrete input: two successive appends of
valid candidates at the same instant 7 (two calls within the same
millisecond of Date.now) produce records with the identical id "7", so
the id values of the collection are not pairwise distinct. -/
theorem C9_ids_counterexample :
    ((snapshot (modalSave ⟨"2", "Transport", "01/02/2024", ""⟩ 7
      (modalSave ⟨"1", "Food", "01/01/2024", ""⟩ 7 ⟨[], .absent⟩).1).1).map
        (fun e => e.id) = ["7", "7"]) ∧
    ¬ ((snapshot (modalSave ⟨"2", "Transport", "01/02/2024", ""⟩ 7
      (modalSave ⟨"1", "Food", "01/01/2024", ""⟩ 7 ⟨[], .absent⟩).1).1).map
        (fun e => e.id)).Nodup := by
  decide

/-- Claim C9 (amended): in every reachable collection state each record
carries as id its creation instant rendered in decimal, so the id values
are pairwise distinct whenever the creation instants are pairwise
distinct (in particular successive appends at distinct Date.now values
get different ids); ids are assigned at creation and never change: every
record in the state after an operation is either an untouched record of
the previous state or the single freshly constructed record. -/
theorem C9_ids_amended :
    (∀ (st : AppState) (c : Nat), Reachable st c →
      (∀ e ∈ snapshot st, e.id = jsNumToString e.timestamp) ∧
      (((snapshot st).map (fun e => e.timestamp)).Nodup →
        ((snapshot st).map (fun e => e.id)).Nodup)) ∧
    (∀ (inp : ExpenseInput) (now : Nat) (st : AppState) (e : Expense),
      e ∈ snapshot (modalSave inp now st).1 →
      e ∈ snapshot st ∨ handleSave inp now = .saved e) ∧
    (∀ (i : String) (st : AppState) (e : Expense),
      e ∈ snapshot (deleteExpenseConfirmed i st) → e ∈ snapshot st) ∧
    (∀ (st : AppState) (e : Expense),
      e ∈ snapshot (loadExpenses st).state →
      e ∈ snapshot st ∨ ∃ l, st.storage = .data l ∧ e ∈ l) := by
  refine ⟨?_, ?_, ?_, ?_⟩
  · intro st c h
    have hinv := reachable_stateInv h
    refine ⟨fun e he => (hinv.2.1 e he).2, ?_⟩
    intro hts
    have hmap : (snapshot st).map (fun e => e.id) =
        (snapshot st).map (fun e => jsNumToString e.timestamp) :=
      List.map_congr_left (fun e he => (hinv.2.1 e he).2)
    have hcomp : (snapshot st).map (fun e => jsNumToString e.timestamp) =
        ((snapshot st).map (fun e => e.timestamp)).map jsNumToString := by
      rw [List.map_map]
      rfl
    rw [hmap, hcomp]
    exact hts.map (fun a b hab => jsNumToString_inj hab)
  · intro inp now st e he
    cases hh : handleSave inp now with
    | validationError m =>
      left
      simpa [modalSave, hh] using he
    | saved e2 =>
      simp only [modalSave, hh, handleSaveExpense, snapshot] at he
      rcases List.mem_cons.mp he with h | h
      · right; rw [h]
      · left; exact h
  · intro i st e he
    exact List.mem_of_mem_filter he
  · intro st e he
    cases hs : st.storage with
    | absent => left; simpa [loadExpenses, hs, snapshot] using he
    | malformed => left; simpa [loadExpenses, hs, snapshot] using he
    | data l =>
      right
      refine ⟨l, rfl, mem_sortByTimestampDesc.mp ?_⟩
      simpa [loadExpenses, hs, snapshot] using he

theorem C9_ids_witness :
    ((snapshot (modalSave ⟨"10", "Transport", "03/16/2024", ""⟩ 2000
      (modalSave ⟨"42.50", "Food", "03/15/2024", ""⟩ 1000
        ⟨[], .absent⟩).1).1).map (fun e => e.id)).Nodup :=
  (C9_ids_amended.1 _ 2000 reachable_demo).2 (by decide)
